import Mathlib

set_option maxHeartbeats 1000000

/-!
Shallow embedding of `src/source/graphic/Manager.cxx` (`vcl::graphic::Manager`),
a memory-bounded cache manager for graphic objects.

The manager code under `src/` is embedded faithfully, function by function.
The managed objects themselves (`ImpGraphic`) are external collaborators whose
code is not part of this repository's sources; the narrow capability set the
manager consumes (`isSwappedOut`, `isAvailable`, `getSizeBytes`, `swapOut`,
`maLastUsed`, `mpContext`) is modelled from the spec where noted.

Machine integers (`sal_Int64`) are modelled as `Int`; timestamps and durations
are whole seconds (the manager compares `duration_cast<seconds>` results with
`mnAllowedIdleTime`, which is a whole number of seconds). A ghost event trace
and a ghost mutex flag record, purely for specification purposes, which
swap-out callbacks the eviction sweep performs and with which lock state.
-/

/-- State of one managed graphic object, as seen by the manager through the
collaborator contract: swap flag, availability flag, reported size in bytes,
active-operation marker (the `mpContext` field) and last-used timestamp
(whole seconds). -/
structure ImpGraphic where
  swappedOut : Bool
  available : Bool
  sizeBytes : Int
  mpContext : Bool
  maLastUsed : Int
deriving DecidableEq

/-- Ghost trace events. `sweepStart` marks that `reduceGraphicMemory` passed its
entry guards and began an eviction sweep. `swapOutCall id g locked` records
that the sweep invoked `swapOut` on object `id`, whose state at the moment of
the call was `g`, while the manager mutex was held iff `locked`. -/
inductive Event where
  | sweepStart : Event
  | swapOutCall : Nat → ImpGraphic → Bool → Event
deriving DecidableEq

/-- The manager's state (fields of `vcl::graphic::Manager`, lines 60-76).
Objects are identified by `Nat` (standing for the `ImpGraphic*` pointers);
`heap` gives the current state of every object; `m_pImpGraphicList` is the
registry. `lockHeld` is the ghost mutex flag and `trace` the ghost event
trace; neither influences the non-ghost fields. -/
structure ManagerState where
  mnAllowedIdleTime : Int
  mbSwapEnabled : Bool
  mbReducingGraphicMemory : Bool
  mnMemoryLimit : Int
  mnUsedSize : Int
  m_pImpGraphicList : List Nat
  heap : Nat → ImpGraphic
  lockHeld : Bool
  trace : List Event

/-- `Manager::getGraphicSizeBytes` (lines 151-156): 0 if the object is not
available, else its reported size. -/
def getGraphicSizeBytes (g : ImpGraphic) : Int :=
  if !g.available then 0 else g.sizeBytes

/-- The sweep's early-stop threshold, `sal_Int64(mnMemoryLimit * 0.7)`
(line 88). The source computes the product in `double`; we embed the exact
rational value 0.7 with integer truncation (the two agree except possibly at
the last unit for extreme limits, a boundary no claim exercises). -/
def memoryLimitThreshold (mnMemoryLimit : Int) : Int :=
  7 * mnMemoryLimit / 10

/-- Contribution of object `id` to the recomputed usage sum: 0 when swapped
out, otherwise `getGraphicSizeBytes` (loop bodies at lines 133-139 and
183-189). -/
def sweepContribution (heap : Nat → ImpGraphic) (id : Nat) : Int :=
  if (heap id).swappedOut then 0 else getGraphicSizeBytes (heap id)

/-- The literal recomputed sum of sizes over swapped-in registry members
(`calculatedSize` accumulation, lines 132-139 and 181-189). -/
def calculatedSizeOf (heap : Nat → ImpGraphic) (l : List Nat) : Int :=
  (l.map (sweepContribution heap)).sum

/-- Pointwise update of the object heap. -/
def heapUpdate (heap : Nat → ImpGraphic) (id : Nat) (g : ImpGraphic) :
    Nat → ImpGraphic :=
  fun j => if j = id then g else heap j

/-- Modelled from the spec: the effect of `ImpGraphic::swapOut` (not part of
this repository's sources). Per the collaborator contract the object
dematerializes - it becomes swapped out and no longer available (the spec's
round-trip property says a later swap-in restores `isAvailable() == true`) -
and reports the transition to the manager, which subtracts the freed size
from `mnUsedSize` (`Manager::swappedOut`, lines 275-282). The ghost trace
records the call together with the object state and the mutex flag at the
moment of the call. -/
def swapOutObject (st : ManagerState) (id : Nat) : ManagerState :=
  { st with
    heap := heapUpdate st.heap id
      { st.heap id with swappedOut := true, available := false }
    mnUsedSize := st.mnUsedSize - getGraphicSizeBytes (st.heap id)
    trace := st.trace ++ [Event.swapOutCall id (st.heap id) st.lockHeld] }

/-- Lines 105-108 of the sweep: release the mutex, invoke the object's
`swapOut`, reacquire the mutex. -/
def swapOutCallback (st : ManagerState) (id : Nat) : ManagerState :=
  { swapOutObject { st with lockHeld := false } id with lockHeld := true }

/-- `Manager::loopGraphicsAndSwapOut` (lines 78-113), iterating over a
snapshot of the registry. Early return once `mnUsedSize` drops below the
threshold; skip swapped-out objects, objects of size at most 100000, objects
with an active operation, and objects idle for at most `mnAllowedIdleTime`
seconds; swap out the rest with the mutex released around the call. -/
def loopGraphicsAndSwapOut (now : Int) (st : ManagerState) :
    List Nat → ManagerState
  | [] => st
  | id :: rest =>
    if st.mnUsedSize < memoryLimitThreshold st.mnMemoryLimit then st
    else if (st.heap id).swappedOut then loopGraphicsAndSwapOut now st rest
    else if 100000 < getGraphicSizeBytes (st.heap id) then
      if (st.heap id).mpContext = false then
        if st.mnAllowedIdleTime < now - (st.heap id).maLastUsed then
          loopGraphicsAndSwapOut now (swapOutCallback st id) rest
        else loopGraphicsAndSwapOut now st rest
      else loopGraphicsAndSwapOut now st rest
    else loopGraphicsAndSwapOut now st rest

/-- The self-healing recomputation shared by `registerGraphic` (lines 181-197)
and `reduceGraphicMemory` (lines 132-146): recompute the true sum over
swapped-in registry members and overwrite `mnUsedSize` if it disagrees. -/
def recomputeUsedSize (st : ManagerState) : ManagerState :=
  if calculatedSizeOf st.heap st.m_pImpGraphicList ≠ st.mnUsedSize then
    { st with mnUsedSize := calculatedSizeOf st.heap st.m_pImpGraphicList }
  else st

/-- `Manager::reduceGraphicMemory` (lines 115-149): no-op when swapping is
disabled, usage is below the limit, or a reduction is already in progress;
otherwise set the re-entrancy guard, sweep over a snapshot of the registry,
recompute and self-heal `mnUsedSize`, and clear the guard. The ghost
`sweepStart` event marks that the guards were passed. -/
def reduceGraphicMemory (now : Int) (st : ManagerState) : ManagerState :=
  if st.mbSwapEnabled = false then st
  else if st.mnUsedSize < st.mnMemoryLimit then st
  else if st.mbReducingGraphicMemory = true then st
  else
    { recomputeUsedSize
        (loopGraphicsAndSwapOut now
          { st with
            mbReducingGraphicMemory := true
            trace := st.trace ++ [Event.sweepStart] }
          st.m_pImpGraphicList)
      with mbReducingGraphicMemory := false }

/-- The over-limit pre-eviction check at the top of `registerGraphic`
(lines 171-173): if `mnUsedSize > mnMemoryLimit`, reduce graphic memory. -/
def reduceIfOverLimit (now : Int) (st : ManagerState) : ManagerState :=
  if st.mnMemoryLimit < st.mnUsedSize then reduceGraphicMemory now st else st

/-- Set insertion into the registry (`o3tl::sorted_vector::insert`,
line 179): a no-op when the element is already present. -/
def insertGraphic (id : Nat) (l : List Nat) : List Nat :=
  if id ∈ l then l else id :: l

/-- The second half of `registerGraphic` (lines 175-197): add the object's
current size to `mnUsedSize`, insert it into the registry, then recompute and
self-heal. The guard acquired at line 169 is released when the call returns. -/
def registerInsertAndAccount (id : Nat) (st : ManagerState) : ManagerState :=
  { recomputeUsedSize
      { st with
        mnUsedSize := st.mnUsedSize + getGraphicSizeBytes (st.heap id)
        m_pImpGraphicList := insertGraphic id st.m_pImpGraphicList }
    with lockHeld := false }

/-- `Manager::registerGraphic` (lines 167-198): take the mutex, pre-evict if
over the limit, then insert, account and self-heal. -/
def registerGraphic (now : Int) (id : Nat) (st : ManagerState) : ManagerState :=
  registerInsertAndAccount id (reduceIfOverLimit now { st with lockHeld := true })

/-- `Manager::unregisterGraphic` (lines 200-206): subtract the object's
currently reported size - whatever its swap state - and erase it from the
registry. No recomputation is performed. -/
def unregisterGraphic (id : Nat) (st : ManagerState) : ManagerState :=
  { st with
    mnUsedSize := st.mnUsedSize - getGraphicSizeBytes (st.heap id)
    m_pImpGraphicList := st.m_pImpGraphicList.erase id }

/-- `Manager::swappedIn` (lines 266-273): after a null check, add the reported
size to `mnUsedSize`. -/
def swappedIn (p : Option Nat) (nSizeBytes : Int) (st : ManagerState) :
    ManagerState :=
  match p with
  | some _ => { st with mnUsedSize := st.mnUsedSize + nSizeBytes }
  | none => st

/-- `Manager::swappedOut` (lines 275-282): after a null check, subtract the
reported size from `mnUsedSize`. -/
def swappedOutNotify (p : Option Nat) (nSizeBytes : Int) (st : ManagerState) :
    ManagerState :=
  match p with
  | some _ => { st with mnUsedSize := st.mnUsedSize - nSizeBytes }
  | none => st

/-- `Manager::changeExisting` (lines 284-290): subtract the old size, add the
object's currently reported size. -/
def changeExisting (id : Nat) (nOldSizeBytes : Int) (st : ManagerState) :
    ManagerState :=
  { st with
    mnUsedSize := st.mnUsedSize - nOldSizeBytes + getGraphicSizeBytes (st.heap id) }

/-- `setupConfigurationValuesIfPossible` (lines 33-51). The three
configuration reads are external calls that may throw; each is modelled as an
`Except`. The reads assign in order inside one try block, so a failure keeps
the defaults only for the value that failed and the ones not yet read; the
exception is swallowed (`catch (...) {}`). Under fuzzing nothing is read. -/
def setupConfigurationValuesIfPossible (fuzzing : Bool)
    (memLimitConf idleTimeConf : Except Unit Int) (swapConf : Except Unit Bool)
    (rMemoryLimit rAllowedIdleTime : Int) (bSwapEnabled : Bool) :
    Int × Int × Bool :=
  if fuzzing then (rMemoryLimit, rAllowedIdleTime, bSwapEnabled)
  else
    match memLimitConf with
    | .error _ => (rMemoryLimit, rAllowedIdleTime, bSwapEnabled)
    | .ok l =>
      match idleTimeConf with
      | .error _ => (l, rAllowedIdleTime, bSwapEnabled)
      | .ok t =>
        match swapConf with
        | .error _ => (l, t, bSwapEnabled)
        | .ok s => (l, t, s)

/-- `Manager::Manager` (lines 60-76): member defaults `mnAllowedIdleTime = 10`,
`mbSwapEnabled = true`, `mnMemoryLimit = 300000000`, `mnUsedSize = 0`, then
best-effort configuration. The registry starts empty; `heap0` is the ambient
state of the (not yet registered) objects. The timer only re-triggers
`reduceGraphicMemory` and is not modelled separately. -/
def managerCtor (fuzzing : Bool) (memLimitConf idleTimeConf : Except Unit Int)
    (swapConf : Except Unit Bool) (heap0 : Nat → ImpGraphic) : ManagerState :=
  { mnAllowedIdleTime :=
      (setupConfigurationValuesIfPossible fuzzing memLimitConf idleTimeConf
        swapConf 300000000 10 true).2.1
    mbSwapEnabled :=
      (setupConfigurationValuesIfPossible fuzzing memLimitConf idleTimeConf
        swapConf 300000000 10 true).2.2
    mbReducingGraphicMemory := false
    mnMemoryLimit :=
      (setupConfigurationValuesIfPossible fuzzing memLimitConf idleTimeConf
        swapConf 300000000 10 true).1
    mnUsedSize := 0
    m_pImpGraphicList := []
    heap := heap0
    lockHeld := false
    trace := [] }

/-- The accounting invariant of the spec: `mnUsedSize` equals the literal sum
of sizes over swapped-in registry members (0 for unavailable ones). -/
def accountingInvariant (st : ManagerState) : Prop :=
  st.mnUsedSize = calculatedSizeOf st.heap st.m_pImpGraphicList

instance (st : ManagerState) : Decidable (accountingInvariant st) := by
  unfold accountingInvariant; infer_instance

/-- Quiescent-point operations on the manager: each swap-notification is
paired with the object transition that, per the spec, precedes it (the
transition side is modelled from the spec, the manager side is the embedded
source function). `register` constructs a fresh object in state `g` and
registers it; `objSwapOut` is the object's (idempotent) `swapOut`;
`objSwapIn id n` rematerializes a swapped-out object with size `n` and
reports it; `objResize id n` resizes a materialized object in place and
reports the old size. -/
inductive GraphicOp where
  | register : Nat → ImpGraphic → GraphicOp
  | unregister : Nat → GraphicOp
  | objSwapOut : Nat → GraphicOp
  | objSwapIn : Nat → Int → GraphicOp
  | objResize : Nat → Int → GraphicOp
deriving DecidableEq

/-- Apply one quiescent-point operation. -/
def applyOp (now : Int) (st : ManagerState) : GraphicOp → ManagerState
  | .register id g =>
      registerGraphic now id { st with heap := heapUpdate st.heap id g }
  | .unregister id => unregisterGraphic id st
  | .objSwapOut id =>
      if (st.heap id).swappedOut then st else swapOutObject st id
  | .objSwapIn id n =>
      swappedIn (some id) n
        { st with
          heap := heapUpdate st.heap id
            { st.heap id with swappedOut := false, available := true, sizeBytes := n } }
  | .objResize id n =>
      changeExisting id (getGraphicSizeBytes (st.heap id))
        { st with
          heap := heapUpdate st.heap id { st.heap id with sizeBytes := n } }

/-- A freshly created object is coherent: if it is somehow already swapped out
it reports size 0 (per the spec, `sizeBytes` is the footprint when
materialized, 0 when unavailable). -/
def coherentB (g : ImpGraphic) : Bool :=
  !g.swappedOut || decide (getGraphicSizeBytes g = 0)

/-- Well-formedness of one operation, per the spec's lifecycle: registration
is of a fresh, coherent object; unregistration, swap transitions and resizes
concern current registry members; a swap-in starts from a swapped-out object;
a resize concerns a materialized, available object. -/
def wfOp (st : ManagerState) : GraphicOp → Bool
  | .register id g => !decide (id ∈ st.m_pImpGraphicList) && coherentB g
  | .unregister id => decide (id ∈ st.m_pImpGraphicList)
  | .objSwapOut id => decide (id ∈ st.m_pImpGraphicList)
  | .objSwapIn id _ =>
      decide (id ∈ st.m_pImpGraphicList) && (st.heap id).swappedOut
  | .objResize id _ =>
      decide (id ∈ st.m_pImpGraphicList) && !(st.heap id).swappedOut
        && (st.heap id).available

/-- Well-formedness of a whole operation sequence. -/
def wfRun (now : Int) (st : ManagerState) : List GraphicOp → Bool
  | [] => true
  | op :: ops => wfOp st op && wfRun now (applyOp now st op) ops

/-- Run a sequence of quiescent-point operations. -/
def runOps (now : Int) (st : ManagerState) : List GraphicOp → ManagerState
  | [] => st
  | op :: ops => runOps now (applyOp now st op) ops

/-! ### Sum lemmas for the recomputed usage -/

theorem calculatedSizeOf_erase (h : Nat → ImpGraphic) (l : List Nat) (id : Nat)
    (hm : id ∈ l) :
    calculatedSizeOf h (l.erase id)
      = calculatedSizeOf h l - sweepContribution h id := by
  have h1 := ((List.perm_cons_erase hm).map (sweepContribution h)).sum_eq
  unfold calculatedSizeOf
  simp only [List.map_cons, List.sum_cons] at h1
  omega

theorem calculatedSizeOf_congr (h h2 : Nat → ImpGraphic) (l : List Nat)
    (hh : ∀ j ∈ l, h2 j = h j) : calculatedSizeOf h2 l = calculatedSizeOf h l := by
  unfold calculatedSizeOf
  congr 1
  refine List.map_congr_left fun a ha => ?_
  unfold sweepContribution
  rw [hh a ha]

theorem calculatedSizeOf_update (h h2 : Nat → ImpGraphic) (l : List Nat) (id : Nat)
    (hn : l.Nodup) (hm : id ∈ l) (hh : ∀ j, j ≠ id → h2 j = h j) :
    calculatedSizeOf h2 l
      = calculatedSizeOf h l - sweepContribution h id + sweepContribution h2 id := by
  have hp := List.perm_cons_erase hm
  have h1 := (hp.map (sweepContribution h)).sum_eq
  have h3 := (hp.map (sweepContribution h2)).sum_eq
  have h4 : calculatedSizeOf h2 (l.erase id) = calculatedSizeOf h (l.erase id) :=
    calculatedSizeOf_congr h h2 (l.erase id)
      (fun j hj => hh j ((hn.mem_erase_iff.1 hj).1))
  unfold calculatedSizeOf at h4 ⊢
  simp only [List.map_cons, List.sum_cons] at h1 h3
  omega

/-! ### Lemmas about the eviction sweep -/

/-- Coherence of an object state: a swapped-out object reports size 0. -/
def coherentG (g : ImpGraphic) : Prop :=
  g.swappedOut = true → getGraphicSizeBytes g = 0

theorem loop_preserves (now : Int) : ∀ (l : List Nat) (st : ManagerState),
    (loopGraphicsAndSwapOut now st l).m_pImpGraphicList = st.m_pImpGraphicList ∧
    (loopGraphicsAndSwapOut now st l).mnMemoryLimit = st.mnMemoryLimit ∧
    (loopGraphicsAndSwapOut now st l).mnAllowedIdleTime = st.mnAllowedIdleTime ∧
    (loopGraphicsAndSwapOut now st l).mbSwapEnabled = st.mbSwapEnabled ∧
    (loopGraphicsAndSwapOut now st l).mbReducingGraphicMemory
      = st.mbReducingGraphicMemory := by
  intro l
  induction l with
  | nil => intro st; exact ⟨rfl, rfl, rfl, rfl, rfl⟩
  | cons id rest ih =>
    intro st
    simp only [loopGraphicsAndSwapOut]
    split_ifs
    all_goals first
      | exact ⟨rfl, rfl, rfl, rfl, rfl⟩
      | exact ih _

theorem loop_trace_mono (now : Int) : ∀ (l : List Nat) (st : ManagerState)
    (e : Event), e ∈ st.trace → e ∈ (loopGraphicsAndSwapOut now st l).trace := by
  intro l
  induction l with
  | nil => intro st e he; exact he
  | cons id rest ih =>
    intro st e he
    simp only [loopGraphicsAndSwapOut]
    split_ifs
    all_goals first
      | exact he
      | exact ih _ e he
      | exact ih _ e (List.mem_append_left _ he)

theorem loop_trace_ext (now : Int) : ∀ (l : List Nat) (st : ManagerState),
    ∃ tl, (loopGraphicsAndSwapOut now st l).trace = st.trace ++ tl := by
  intro l
  induction l with
  | nil => intro st; exact ⟨[], (List.append_nil _).symm⟩
  | cons id rest ih =>
    intro st
    simp only [loopGraphicsAndSwapOut]
    split_ifs
    · exact ⟨[], (List.append_nil _).symm⟩
    · exact ih st
    · obtain ⟨tl, htl⟩ := ih (swapOutCallback st id)
      refine ⟨Event.swapOutCall id (st.heap id) false :: tl, ?_⟩
      rw [htl]
      simp [swapOutCallback, swapOutObject]
    · exact ih st
    · exact ih st
    · exact ih st

theorem loop_lockHeld (now : Int) : ∀ (l : List Nat) (st : ManagerState),
    st.lockHeld = true → (loopGraphicsAndSwapOut now st l).lockHeld = true := by
  intro l
  induction l with
  | nil => intro st h; exact h
  | cons id rest ih =>
    intro st h
    simp only [loopGraphicsAndSwapOut]
    split_ifs
    all_goals first
      | exact h
      | exact ih _ h
      | exact ih _ rfl

theorem loop_heap_coherent (now : Int) : ∀ (l : List Nat) (st : ManagerState)
    (j : Nat), coherentG (st.heap j) →
    coherentG ((loopGraphicsAndSwapOut now st l).heap j) := by
  intro l
  induction l with
  | nil => intro st j hj; exact hj
  | cons id rest ih =>
    intro st j hj
    simp only [loopGraphicsAndSwapOut]
    split_ifs
    · exact hj
    · exact ih _ j hj
    · refine ih _ j ?_
      show coherentG (heapUpdate st.heap id _ j)
      unfold heapUpdate
      by_cases hji : j = id
      · rw [if_pos hji]
        intro _
        rfl
      · rw [if_neg hji]
        exact hj
    · exact ih _ j hj
    · exact ih _ j hj
    · exact ih _ j hj

theorem loop_events (now : Int) : ∀ (l : List Nat) (st : ManagerState) (e : Event),
    e ∈ (loopGraphicsAndSwapOut now st l).trace →
    e ∈ st.trace ∨
      ∃ id, e = Event.swapOutCall id (st.heap id) false ∧
        (st.heap id).swappedOut = false ∧
        100000 < getGraphicSizeBytes (st.heap id) ∧
        (st.heap id).mpContext = false ∧
        st.mnAllowedIdleTime < now - (st.heap id).maLastUsed := by
  intro l
  induction l with
  | nil => intro st e he; exact Or.inl he
  | cons id rest ih =>
    intro st e he
    simp only [loopGraphicsAndSwapOut] at he
    split_ifs at he with h1 h2 h3 h4 h5
    · exact Or.inl he
    · rcases ih st e he with hl | hr
      · exact Or.inl hl
      · exact Or.inr hr
    · rcases ih (swapOutCallback st id) e he with hl | ⟨id2, heq, hswap, hsize, hctx, hidle⟩
      · have : e ∈ st.trace ++ [Event.swapOutCall id (st.heap id) false] := hl
        rcases List.mem_append.1 this with h | h
        · exact Or.inl h
        · refine Or.inr ⟨id, List.mem_singleton.1 h, ?_, h3, h4, h5⟩
          exact Bool.not_eq_true _ ▸ Bool.of_not_eq_true h2
      · by_cases hid : id2 = id
        · subst hid
          have : (swapOutCallback st id2).heap id2
              = { st.heap id2 with swappedOut := true, available := false } := by
            show heapUpdate _ id2 _ id2 = _
            unfold heapUpdate
            rw [if_pos rfl]
          rw [this] at hswap
          simp at hswap
        · have hsame : (swapOutCallback st id).heap id2 = st.heap id2 := by
            show heapUpdate _ id _ id2 = _
            unfold heapUpdate
            rw [if_neg hid]
          rw [hsame] at heq hswap hsize hctx hidle
          exact Or.inr ⟨id2, heq, hswap, hsize, hctx, hidle⟩
    · rcases ih st e he with hl | hr
      · exact Or.inl hl
      · exact Or.inr hr
    · rcases ih st e he with hl | hr
      · exact Or.inl hl
      · exact Or.inr hr
    · rcases ih st e he with hl | hr
      · exact Or.inl hl
      · exact Or.inr hr

/-! ### Lemmas about recomputation, reduction and registration -/

theorem recompute_heap (st : ManagerState) : (recomputeUsedSize st).heap = st.heap := by
  unfold recomputeUsedSize
  split_ifs <;> rfl

theorem recompute_registry (st : ManagerState) :
    (recomputeUsedSize st).m_pImpGraphicList = st.m_pImpGraphicList := by
  unfold recomputeUsedSize
  split_ifs <;> rfl

theorem recompute_trace (st : ManagerState) :
    (recomputeUsedSize st).trace = st.trace := by
  unfold recomputeUsedSize
  split_ifs <;> rfl

theorem recompute_used (st : ManagerState) :
    (recomputeUsedSize st).mnUsedSize
      = calculatedSizeOf st.heap st.m_pImpGraphicList := by
  unfold recomputeUsedSize
  split_ifs with h
  · rfl
  · exact (not_not.mp h).symm

theorem reduce_registry (now : Int) (st : ManagerState) :
    (reduceGraphicMemory now st).m_pImpGraphicList = st.m_pImpGraphicList := by
  unfold reduceGraphicMemory
  split_ifs
  · rfl
  · rfl
  · rfl
  · exact (recompute_registry _).trans (loop_preserves now _ _).1

theorem reduce_heap_coherent (now : Int) (st : ManagerState) (j : Nat)
    (hj : coherentG (st.heap j)) :
    coherentG ((reduceGraphicMemory now st).heap j) := by
  unfold reduceGraphicMemory
  split_ifs
  · exact hj
  · exact hj
  · exact hj
  · show coherentG ((recomputeUsedSize _).heap j)
    rw [recompute_heap]
    exact loop_heap_coherent now _ _ j hj

theorem reduceIfOverLimit_registry (now : Int) (st : ManagerState) :
    (reduceIfOverLimit now st).m_pImpGraphicList = st.m_pImpGraphicList := by
  unfold reduceIfOverLimit
  split_ifs
  · exact reduce_registry now st
  · rfl

theorem reduceIfOverLimit_heap_coherent (now : Int) (st : ManagerState) (j : Nat)
    (hj : coherentG (st.heap j)) :
    coherentG ((reduceIfOverLimit now st).heap j) := by
  unfold reduceIfOverLimit
  split_ifs
  · exact reduce_heap_coherent now st j hj
  · exact hj

theorem mem_insertGraphic (id : Nat) (l : List Nat) : id ∈ insertGraphic id l := by
  unfold insertGraphic
  split_ifs with h
  · exact h
  · exact List.mem_cons_self id l

theorem insertGraphic_nodup (id : Nat) (l : List Nat) (h : l.Nodup) :
    (insertGraphic id l).Nodup := by
  unfold insertGraphic
  split_ifs with hm
  · exact h
  · exact List.nodup_cons.2 ⟨hm, h⟩

theorem mem_of_mem_insertGraphic {j id : Nat} {l : List Nat} :
    j ∈ insertGraphic id l → j = id ∨ j ∈ l := by
  unfold insertGraphic
  split_ifs with hm
  · exact fun h => Or.inr h
  · intro h
    rcases List.mem_cons.1 h with h | h
    · exact Or.inl h
    · exact Or.inr h

theorem register_heap (now : Int) (id : Nat) (st : ManagerState) :
    (registerGraphic now id st).heap
      = (reduceIfOverLimit now { st with lockHeld := true }).heap := by
  unfold registerGraphic registerInsertAndAccount
  show (recomputeUsedSize _).heap = _
  rw [recompute_heap]

theorem register_registry (now : Int) (id : Nat) (st : ManagerState) :
    (registerGraphic now id st).m_pImpGraphicList
      = insertGraphic id st.m_pImpGraphicList := by
  unfold registerGraphic registerInsertAndAccount
  show (recomputeUsedSize _).m_pImpGraphicList = _
  rw [recompute_registry]
  show insertGraphic id
      (reduceIfOverLimit now { st with lockHeld := true }).m_pImpGraphicList = _
  rw [reduceIfOverLimit_registry]

theorem register_accounting (now : Int) (id : Nat) (st : ManagerState) :
    accountingInvariant (registerGraphic now id st) := by
  unfold registerGraphic registerInsertAndAccount accountingInvariant
  show (recomputeUsedSize _).mnUsedSize
    = calculatedSizeOf ((recomputeUsedSize _).heap) ((recomputeUsedSize _).m_pImpGraphicList)
  rw [recompute_used, recompute_heap, recompute_registry]

/-! ### Preservation of the accounting invariant by well-formed operations -/

/-- A good manager state: the accounting invariant holds, the registry is
duplicate-free, and every registry member is coherent. -/
def goodState (st : ManagerState) : Prop :=
  accountingInvariant st ∧ st.m_pImpGraphicList.Nodup ∧
    ∀ id ∈ st.m_pImpGraphicList, coherentG (st.heap id)

theorem coherentG_of_coherentB {g : ImpGraphic} (h : coherentB g = true) :
    coherentG g := by
  intro hs
  unfold coherentB at h
  rw [hs] at h
  simpa using h

theorem applyOp_good (now : Int) (st : ManagerState) (op : GraphicOp)
    (hgood : goodState st) (hwf : wfOp st op = true) :
    goodState (applyOp now st op) := by
  obtain ⟨hinv, hnd, hcoh⟩ := hgood
  cases op with
  | register id g =>
    simp only [wfOp, Bool.and_eq_true, Bool.not_eq_true',
      decide_eq_false_iff_not] at hwf
    obtain ⟨hfresh, hcohg⟩ := hwf
    show goodState (registerGraphic now id { st with heap := heapUpdate st.heap id g })
    refine ⟨register_accounting now id _, ?_, ?_⟩
    · rw [register_registry]
      exact insertGraphic_nodup id _ hnd
    · intro j hj
      rw [register_registry] at hj
      rw [register_heap]
      refine reduceIfOverLimit_heap_coherent now _ j ?_
      show coherentG (heapUpdate st.heap id g j)
      unfold heapUpdate
      rcases mem_of_mem_insertGraphic hj with hji | hjl
      · rw [if_pos hji]
        exact coherentG_of_coherentB hcohg
      · have hne : j ≠ id := fun h => hfresh (h ▸ hjl)
        rw [if_neg hne]
        exact hcoh j hjl
  | unregister id =>
    simp only [wfOp, decide_eq_true_eq] at hwf
    refine ⟨?_, hnd.erase id, ?_⟩
    · show st.mnUsedSize - getGraphicSizeBytes (st.heap id)
        = calculatedSizeOf st.heap (st.m_pImpGraphicList.erase id)
      rw [calculatedSizeOf_erase st.heap _ id hwf]
      have hc : getGraphicSizeBytes (st.heap id) = sweepContribution st.heap id := by
        unfold sweepContribution
        split_ifs with hs
        · exact (hcoh id hwf hs).symm ▸ rfl
        · rfl
      unfold accountingInvariant at hinv
      omega
    · intro j hj
      exact hcoh j (List.mem_of_mem_erase hj)
  | objSwapOut id =>
    simp only [wfOp, decide_eq_true_eq] at hwf
    show goodState (if (st.heap id).swappedOut then st else swapOutObject st id)
    split_ifs with hs
    · exact ⟨hinv, hnd, hcoh⟩
    · refine ⟨?_, hnd, ?_⟩
      · show st.mnUsedSize - getGraphicSizeBytes (st.heap id)
          = calculatedSizeOf
              (heapUpdate st.heap id
                { st.heap id with swappedOut := true, available := false })
              st.m_pImpGraphicList
        rw [calculatedSizeOf_update st.heap _ _ id hnd hwf
          (fun j hj => by unfold heapUpdate; rw [if_neg hj])]
        have h1 : sweepContribution st.heap id = getGraphicSizeBytes (st.heap id) := by
          unfold sweepContribution
          rw [if_neg hs]
        have h2 : sweepContribution
            (heapUpdate st.heap id
              { st.heap id with swappedOut := true, available := false }) id = 0 := by
          simp [sweepContribution, heapUpdate]
        unfold accountingInvariant at hinv
        omega
      · intro j hj
        show coherentG (heapUpdate st.heap id _ j)
        unfold heapUpdate
        by_cases hji : j = id
        · rw [if_pos hji]
          intro _
          rfl
        · rw [if_neg hji]
          exact hcoh j hj
  | objSwapIn id n =>
    simp only [wfOp, Bool.and_eq_true, decide_eq_true_eq] at hwf
    obtain ⟨hmem, hs⟩ := hwf
    refine ⟨?_, hnd, ?_⟩
    · show st.mnUsedSize + n
        = calculatedSizeOf
            (heapUpdate st.heap id
              { st.heap id with swappedOut := false, available := true, sizeBytes := n })
            st.m_pImpGraphicList
      rw [calculatedSizeOf_update st.heap _ _ id hnd hmem
        (fun j hj => by unfold heapUpdate; rw [if_neg hj])]
      have h1 : sweepContribution st.heap id = 0 := by
        unfold sweepContribution
        rw [if_pos hs]
      have h2 : sweepContribution
          (heapUpdate st.heap id
            { st.heap id with swappedOut := false, available := true, sizeBytes := n })
          id = n := by
        simp [sweepContribution, heapUpdate, getGraphicSizeBytes]
      unfold accountingInvariant at hinv
      omega
    · intro j hj
      show coherentG (heapUpdate st.heap id _ j)
      unfold heapUpdate
      by_cases hji : j = id
      · rw [if_pos hji]
        intro hcontra
        have hcf : false = true := hcontra
        cases hcf
      · rw [if_neg hji]
        exact hcoh j hj
  | objResize id n =>
    simp only [wfOp, Bool.and_eq_true, Bool.not_eq_true',
      decide_eq_true_eq] at hwf
    obtain ⟨⟨hmem, hs⟩, hav⟩ := hwf
    refine ⟨?_, hnd, ?_⟩
    · show st.mnUsedSize - getGraphicSizeBytes (st.heap id)
          + getGraphicSizeBytes
              (heapUpdate st.heap id { st.heap id with sizeBytes := n } id)
        = calculatedSizeOf
            (heapUpdate st.heap id { st.heap id with sizeBytes := n })
            st.m_pImpGraphicList
      rw [calculatedSizeOf_update st.heap _ _ id hnd hmem
        (fun j hj => by unfold heapUpdate; rw [if_neg hj])]
      have h1 : sweepContribution st.heap id = getGraphicSizeBytes (st.heap id) := by
        unfold sweepContribution
        rw [if_neg (by simp [hs])]
      have h2 : sweepContribution
          (heapUpdate st.heap id { st.heap id with sizeBytes := n }) id
          = getGraphicSizeBytes
              (heapUpdate st.heap id { st.heap id with sizeBytes := n } id) := by
        unfold sweepContribution heapUpdate
        rw [if_pos rfl]
        rw [if_neg]
        intro hcontra
        have hcf : (st.heap id).swappedOut = true := hcontra
        rw [hs] at hcf
        cases hcf
      unfold accountingInvariant at hinv
      omega
    · intro j hj
      show coherentG (heapUpdate st.heap id _ j)
      unfold heapUpdate
      by_cases hji : j = id
      · rw [if_pos hji]
        intro hcontra
        have hcf : (st.heap id).swappedOut = true := hcontra
        rw [hs] at hcf
        cases hcf
      · rw [if_neg hji]
        exact hcoh j hj

theorem wfRun_good (now : Int) : ∀ (ops : List GraphicOp) (st : ManagerState),
    goodState st → wfRun now st ops = true → goodState (runOps now st ops) := by
  intro ops
  induction ops with
  | nil => intro st h _; exact h
  | cons op ops ih =>
    intro st h hwf
    rw [wfRun, Bool.and_eq_true] at hwf
    exact ih _ (applyOp_good now st op h hwf.1) hwf.2

/-! ### Claims -/

/-- C1: for every finite sequence of well-formed register, unregister and
swap-notification (swappedIn / swappedOut / changeExisting) operations
starting from a freshly constructed manager, at every quiescent point (each
operation, together with the object transition its callback reports, has
completed) mnUsedSize equals the literal sum of getSizeBytes over all
registry members with swappedOut = false, counting 0 for unavailable
members. The object-transition side of each operation is modelled from the
spec; the manager side is the embedded source. -/
theorem C1_quiescent_accounting_invariant (now : Int) (fuzzing : Bool)
    (memLimitConf idleTimeConf : Except Unit Int) (swapConf : Except Unit Bool)
    (heap0 : Nat → ImpGraphic) (ops : List GraphicOp)
    (hwf : wfRun now (managerCtor fuzzing memLimitConf idleTimeConf swapConf heap0)
      ops = true) :
    accountingInvariant
      (runOps now (managerCtor fuzzing memLimitConf idleTimeConf swapConf heap0)
        ops) :=
  (wfRun_good now ops
    (managerCtor fuzzing memLimitConf idleTimeConf swapConf heap0)
    ⟨rfl, List.nodup_nil, fun id h => absurd h (List.not_mem_nil id)⟩ hwf).1

theorem C1_quiescent_accounting_invariant_witness :
    wfRun 100 (managerCtor true (Except.ok 0) (Except.ok 0) (Except.ok true)
        (fun _ => ⟨false, true, 0, false, 0⟩))
      [GraphicOp.register 0 ⟨false, true, 150000, false, 0⟩,
        GraphicOp.objSwapOut 0, GraphicOp.unregister 0] = true ∧
    accountingInvariant
      (runOps 100 (managerCtor true (Except.ok 0) (Except.ok 0) (Except.ok true)
          (fun _ => ⟨false, true, 0, false, 0⟩))
        [GraphicOp.register 0 ⟨false, true, 150000, false, 0⟩,
          GraphicOp.objSwapOut 0, GraphicOp.unregister 0]) :=
  ⟨by decide,
    C1_quiescent_accounting_invariant 100 true (Except.ok 0) (Except.ok 0)
      (Except.ok true) (fun _ => ⟨false, true, 0, false, 0⟩)
      [GraphicOp.register 0 ⟨false, true, 150000, false, 0⟩,
        GraphicOp.objSwapOut 0, GraphicOp.unregister 0] (by decide)⟩

/-- C2: registerGraphic is total (it always succeeds); after it returns the
object is a member of the registry and mnUsedSize equals the freshly
recomputed sum over swapped-in registry members. The recomputation runs
unconditionally on every register call - this theorem has no hypothesis about
drift, the entry state is arbitrary. -/
theorem C2_register_recomputes_unconditionally (now : Int) (id : Nat)
    (st : ManagerState) :
    id ∈ (registerGraphic now id st).m_pImpGraphicList ∧
    (registerGraphic now id st).mnUsedSize
      = calculatedSizeOf (registerGraphic now id st).heap
          (registerGraphic now id st).m_pImpGraphicList := by
  constructor
  · rw [register_registry]
    exact mem_insertGraphic id _
  · exact register_accounting now id st

/-- C4: the eviction sweep halts as soon as mnUsedSize is below
0.7 * mnMemoryLimit: the threshold test is the first test of each iteration,
and a sweep entered below the threshold examines no object, swaps nothing
out, and leaves the state (trace included) unchanged. -/
theorem C4_sweep_early_stop (now : Int) (st : ManagerState) (l : List Nat)
    (h : st.mnUsedSize < memoryLimitThreshold st.mnMemoryLimit) :
    loopGraphicsAndSwapOut now st l = st := by
  cases l with
  | nil => rfl
  | cons id rest =>
    simp only [loopGraphicsAndSwapOut]
    rw [if_pos h]

def stC4 : ManagerState :=
  { mnAllowedIdleTime := 10, mbSwapEnabled := true,
    mbReducingGraphicMemory := false, mnMemoryLimit := 1000000,
    mnUsedSize := 600000, m_pImpGraphicList := [0, 1],
    heap := fun _ => ⟨false, true, 400000, false, 0⟩,
    lockHeld := true, trace := [] }

theorem C4_sweep_early_stop_witness :
    stC4.mnUsedSize < memoryLimitThreshold stC4.mnMemoryLimit ∧
    loopGraphicsAndSwapOut 100 stC4 [0, 1] = stC4 :=
  ⟨by decide, C4_sweep_early_stop 100 stC4 [0, 1] (by decide)⟩

/-- C5: every swap-out the sweep invokes is on an object that, at the moment
of the call, was swapped in, had materialized size strictly greater than
100000 bytes, and had no active operation; equivalently, the sweep never
invokes swapOut on an already swapped-out, small, or busy object. -/
theorem C5_sweep_eligibility (now : Int) (st : ManagerState) (l : List Nat)
    (id : Nat) (g : ImpGraphic) (b : Bool)
    (h : Event.swapOutCall id g b ∈ (loopGraphicsAndSwapOut now st l).trace) :
    Event.swapOutCall id g b ∈ st.trace ∨
      (g.swappedOut = false ∧ 100000 < getGraphicSizeBytes g ∧
        g.mpContext = false) := by
  rcases loop_events now l st _ h with hl | ⟨id2, heq, hswap, hsize, hctx, _⟩
  · exact Or.inl hl
  · injection heq with h1 h2 h3
    subst h1
    subst h2
    exact Or.inr ⟨hswap, hsize, hctx⟩

def stC5 : ManagerState :=
  { mnAllowedIdleTime := 10, mbSwapEnabled := true,
    mbReducingGraphicMemory := true, mnMemoryLimit := 100,
    mnUsedSize := 500000, m_pImpGraphicList := [7],
    heap := fun _ => ⟨false, true, 200000, false, 0⟩,
    lockHeld := true, trace := [] }

theorem C5_sweep_eligibility_witness :
    Event.swapOutCall 7 ⟨false, true, 200000, false, 0⟩ false
        ∈ (loopGraphicsAndSwapOut 100 stC5 [7]).trace ∧
    ((⟨false, true, 200000, false, 0⟩ : ImpGraphic).swappedOut = false ∧
      100000 < getGraphicSizeBytes ⟨false, true, 200000, false, 0⟩ ∧
      (⟨false, true, 200000, false, 0⟩ : ImpGraphic).mpContext = false) := by
  have h : Event.swapOutCall 7 ⟨false, true, 200000, false, 0⟩ false
      ∈ (loopGraphicsAndSwapOut 100 stC5 [7]).trace := by decide
  refine ⟨h, ?_⟩
  rcases C5_sweep_eligibility 100 stC5 [7] 7 ⟨false, true, 200000, false, 0⟩
      false h with hl | hr
  · exact absurd hl (by decide)
  · exact hr

/-- C7: reduceGraphicMemory is a complete no-op - the state, registry,
usedBytes and ghost trace all unchanged, hence no swap-out invoked and no
error signalled (the function is total and silent) - whenever swapping is
disabled, or usage is strictly below the limit, or the re-entrancy guard is
already set; and whenever the guard was clear at entry it is clear again when
the call returns, whether the run was suppressed or not. -/
theorem C7_reduce_noop_conditions (now : Int) (st : ManagerState) :
    ((st.mbSwapEnabled = false ∨ st.mnUsedSize < st.mnMemoryLimit ∨
        st.mbReducingGraphicMemory = true) →
      reduceGraphicMemory now st = st) ∧
    (st.mbReducingGraphicMemory = false →
      (reduceGraphicMemory now st).mbReducingGraphicMemory = false) := by
  constructor
  · intro h
    unfold reduceGraphicMemory
    split_ifs with h1 h2 h3
    · rfl
    · rfl
    · rfl
    · rcases h with h | h | h
      · exact absurd h h1
      · exact absurd h h2
      · exact absurd h h3
  · intro h
    unfold reduceGraphicMemory
    split_ifs
    · exact h
    · exact h
    · exact h
    · rfl

def stC7 : ManagerState :=
  { mnAllowedIdleTime := 10, mbSwapEnabled := false,
    mbReducingGraphicMemory := false, mnMemoryLimit := 100,
    mnUsedSize := 500000, m_pImpGraphicList := [4],
    heap := fun _ => ⟨false, true, 200000, false, 0⟩,
    lockHeld := true, trace := [] }

theorem C7_reduce_noop_conditions_witness :
    reduceGraphicMemory 0 stC7 = stC7 ∧
    (reduceGraphicMemory 0 stC7).mbReducingGraphicMemory = false :=
  ⟨(C7_reduce_noop_conditions 0 stC7).1 (Or.inl rfl),
    (C7_reduce_noop_conditions 0 stC7).2 rfl⟩

/-- C8 counterexample: with the memory-limit read succeeding (value 200) and
the idle-time read then failing, the constructed manager keeps
memoryLimit = 200, not the default 300000000 - a configuration-read failure
does not restore all three defaults as the claim states. -/
theorem C8_counterexample :
    (managerCtor false (Except.ok 200) (Except.error ()) (Except.ok true)
        (fun _ => ⟨false, true, 0, false, 0⟩)).mnMemoryLimit = 200 ∧
    (200 : Int) ≠ 300000000 :=
  ⟨rfl, by decide⟩

/-- C8 (amended): configuration is read best-effort, in order memory limit,
idle time, swap enabled, inside one exception handler: a failing read keeps
the defaults (300000000 bytes, 10 seconds, true) for the value that failed
and for all values not yet read, while values read before the failure are
kept; no configuration-read failure is propagated (the embedded function is
total). If the first read fails - or fuzzing suppresses reading - all three
defaults survive into the constructed manager. -/
theorem C8_config_defaults (e : Unit) (c1 c2 : Except Unit Int)
    (c3 : Except Unit Bool) (l t : Int) (s : Bool) (d1 d2 : Int) (d3 : Bool)
    (hp : Nat → ImpGraphic) :
    setupConfigurationValuesIfPossible false (Except.error e) c2 c3 d1 d2 d3
      = (d1, d2, d3) ∧
    setupConfigurationValuesIfPossible false (Except.ok l) (Except.error e) c3
      d1 d2 d3 = (l, d2, d3) ∧
    setupConfigurationValuesIfPossible false (Except.ok l) (Except.ok t)
      (Except.error e) d1 d2 d3 = (l, t, d3) ∧
    setupConfigurationValuesIfPossible false (Except.ok l) (Except.ok t)
      (Except.ok s) d1 d2 d3 = (l, t, s) ∧
    setupConfigurationValuesIfPossible true c1 c2 c3 d1 d2 d3 = (d1, d2, d3) ∧
    (managerCtor false (Except.error e) c2 c3 hp).mnMemoryLimit = 300000000 ∧
    (managerCtor false (Except.error e) c2 c3 hp).mnAllowedIdleTime = 10 ∧
    (managerCtor false (Except.error e) c2 c3 hp).mbSwapEnabled = true :=
  ⟨rfl, rfl, rfl, rfl, rfl, rfl, rfl, rfl⟩

/-- C9: the sweep holds the mutex between iterations but releases it for the
duration of every call into an object's swapOut and reacquires it afterwards
(the bracketing mirrors lines 106-108): every swap-out call the sweep records
was made with the lock released, and a sweep entered holding the lock returns
holding it. -/
theorem C9_lock_released_around_swapout (now : Int) (st : ManagerState)
    (l : List Nat) (hheld : st.lockHeld = true) :
    (loopGraphicsAndSwapOut now st l).lockHeld = true ∧
    ∀ id g b, Event.swapOutCall id g b
        ∈ (loopGraphicsAndSwapOut now st l).trace →
      Event.swapOutCall id g b ∈ st.trace ∨ b = false := by
  refine ⟨loop_lockHeld now l st hheld, ?_⟩
  intro id g b hmem
  rcases loop_events now l st _ hmem with hl | ⟨id2, heq, _, _, _, _⟩
  · exact Or.inl hl
  · injection heq with h1 h2 h3
    exact Or.inr h3

def stC9 : ManagerState :=
  { mnAllowedIdleTime := 10, mbSwapEnabled := true,
    mbReducingGraphicMemory := true, mnMemoryLimit := 100,
    mnUsedSize := 500000, m_pImpGraphicList := [3],
    heap := fun _ => ⟨false, true, 200000, false, 0⟩,
    lockHeld := true, trace := [] }

theorem C9_lock_released_around_swapout_witness :
    (loopGraphicsAndSwapOut 100 stC9 [3]).lockHeld = true ∧
    (Event.swapOutCall 3 ⟨false, true, 200000, false, 0⟩ false
        ∈ (loopGraphicsAndSwapOut 100 stC9 [3]).trace ∧
      ∀ b, Event.swapOutCall 3 ⟨false, true, 200000, false, 0⟩ b
          ∈ (loopGraphicsAndSwapOut 100 stC9 [3]).trace → b = false) := by
  refine ⟨(C9_lock_released_around_swapout 100 stC9 [3] rfl).1, by decide, ?_⟩
  intro b hmem
  rcases (C9_lock_released_around_swapout 100 stC9 [3] rfl).2 3
      ⟨false, true, 200000, false, 0⟩ b hmem with hl | hr
  · have hnil : Event.swapOutCall 3 ⟨false, true, 200000, false, 0⟩ b
        ∈ ([] : List Event) := hl
    cases hnil
  · exact hr

/-- C10: unregisterGraphic subtracts the object's currently reported size
(getSizeBytes if available, 0 if not) regardless of its swapped-out state,
erases it from the registry, and performs no recomputation; unregistering a
swapped-out, available object of size s > 0 therefore leaves mnUsedSize
exactly s below the recomputed sum over swapped-in registry members, until a
later register call re-derives the sum. -/
theorem C10_unregister_drift (st : ManagerState) (id : Nat) (s : Int)
    (ctx : Bool) (t : Int) (hinv : accountingInvariant st)
    (hnd : st.m_pImpGraphicList.Nodup) (hmem : id ∈ st.m_pImpGraphicList)
    (hg : st.heap id = ⟨true, true, s, ctx, t⟩) (hs : 0 < s) :
    (∀ (st2 : ManagerState) (p : Nat),
      (unregisterGraphic p st2).mnUsedSize
          = st2.mnUsedSize - getGraphicSizeBytes (st2.heap p) ∧
      (unregisterGraphic p st2).m_pImpGraphicList
          = st2.m_pImpGraphicList.erase p) ∧
    id ∉ (unregisterGraphic id st).m_pImpGraphicList ∧
    (unregisterGraphic id st).mnUsedSize
      = calculatedSizeOf (unregisterGraphic id st).heap
          (unregisterGraphic id st).m_pImpGraphicList - s ∧
    ∀ (now : Int) (id2 : Nat),
      accountingInvariant (registerGraphic now id2 (unregisterGraphic id st)) := by
  refine ⟨fun st2 p => ⟨rfl, rfl⟩, ?_, ?_, fun now id2 => register_accounting now id2 _⟩
  · intro hmm
    have hmm2 : id ∈ st.m_pImpGraphicList.erase id := hmm
    exact (hnd.mem_erase_iff.1 hmm2).1 rfl
  · show st.mnUsedSize - getGraphicSizeBytes (st.heap id)
      = calculatedSizeOf st.heap (st.m_pImpGraphicList.erase id) - s
    rw [calculatedSizeOf_erase st.heap _ id hmem]
    have h1 : getGraphicSizeBytes (st.heap id) = s := by
      rw [hg]
      rfl
    have h2 : sweepContribution st.heap id = 0 := by
      unfold sweepContribution
      rw [hg]
      rfl
    unfold accountingInvariant at hinv
    omega

def stC10 : ManagerState :=
  { mnAllowedIdleTime := 10, mbSwapEnabled := true,
    mbReducingGraphicMemory := false, mnMemoryLimit := 300000000,
    mnUsedSize := 70000, m_pImpGraphicList := [1, 2],
    heap := fun j => if j = 1 then ⟨true, true, 50000, false, 0⟩
      else ⟨false, true, 70000, false, 0⟩,
    lockHeld := false, trace := [] }

theorem C10_unregister_drift_witness :
    (unregisterGraphic 1 stC10).mnUsedSize
      = calculatedSizeOf (unregisterGraphic 1 stC10).heap
          (unregisterGraphic 1 stC10).m_pImpGraphicList - 50000 :=
  (C10_unregister_drift stC10 1 50000 false 0 (by decide) (by decide)
    (by decide) (by decide) (by decide)).2.2.1

theorem registerInsertAndAccount_trace (id : Nat) (st : ManagerState) :
    (registerInsertAndAccount id st).trace = st.trace := by
  show (recomputeUsedSize _).trace = st.trace
  rw [recompute_trace]

/-- C3 (amended): a register call pre-evicts exactly when mnUsedSize exceeds
mnMemoryLimit at entry (given swapping enabled and no sweep already in
progress), and any such sweep runs before the new object is inserted and
accounted - registerGraphic is literally the insert-and-account step applied
after the conditional reduction; registering objects whose sizes merely sum
above the limit does not itself trigger a sweep: the sweep triggers on the
next register call entered with usage already above the limit. -/
theorem C3_register_preeviction_trigger (now : Int) (id : Nat)
    (st : ManagerState) :
    registerGraphic now id st
      = registerInsertAndAccount id
          (reduceIfOverLimit now { st with lockHeld := true }) ∧
    (st.mnUsedSize ≤ st.mnMemoryLimit →
      (registerGraphic now id st).trace = st.trace) ∧
    (st.mnMemoryLimit < st.mnUsedSize → st.mbSwapEnabled = true →
      st.mbReducingGraphicMemory = false →
      ∃ tl, (registerGraphic now id st).trace
        = st.trace ++ Event.sweepStart :: tl) := by
  refine ⟨rfl, ?_, ?_⟩
  · intro hle
    show (registerInsertAndAccount id (if st.mnMemoryLimit < st.mnUsedSize then
        reduceGraphicMemory now { st with lockHeld := true }
      else { st with lockHeld := true })).trace = st.trace
    rw [if_neg (not_lt.2 hle), registerInsertAndAccount_trace]
  · intro hgt hsw hguard
    show ∃ tl, (registerInsertAndAccount id (if st.mnMemoryLimit < st.mnUsedSize
        then reduceGraphicMemory now { st with lockHeld := true }
        else { st with lockHeld := true })).trace
      = st.trace ++ Event.sweepStart :: tl
    rw [if_pos hgt, registerInsertAndAccount_trace]
    unfold reduceGraphicMemory
    split_ifs with h1 h2 h3
    · have hc : st.mbSwapEnabled = false := h1
      rw [hsw] at hc
      cases hc
    · have hc : st.mnUsedSize < st.mnMemoryLimit := h2
      exact absurd hc (lt_asymm hgt)
    · have hc : st.mbReducingGraphicMemory = true := h3
      rw [hguard] at hc
      cases hc
    · show ∃ tl, (recomputeUsedSize (loopGraphicsAndSwapOut now
          { st with
            lockHeld := true
            mbReducingGraphicMemory := true
            trace := st.trace ++ [Event.sweepStart] }
          st.m_pImpGraphicList)).trace = st.trace ++ Event.sweepStart :: tl
      rw [recompute_trace]
      obtain ⟨tl0, htl⟩ := loop_trace_ext now st.m_pImpGraphicList
        { st with
          lockHeld := true
          mbReducingGraphicMemory := true
          trace := st.trace ++ [Event.sweepStart] }
      refine ⟨tl0, ?_⟩
      rw [htl]
      show (st.trace ++ [Event.sweepStart]) ++ tl0
        = st.trace ++ Event.sweepStart :: tl0
      simp

/-- C3 counterexample: limit 1000000; two registrations of 600000-byte
objects - sizes summing to 1200000, above the limit - trigger no eviction
sweep at all (the ghost trace stays empty), because at entry to each call
usedBytes was still at most the limit; usage ends at 1200000 with no sweep
having run before either object was added and accounted. -/
theorem C3_counterexample :
    (1000000 : Int) < 600000 + 600000 ∧
    (runOps 0 (managerCtor false (Except.ok 1000000) (Except.ok 10)
        (Except.ok true) (fun _ => ⟨false, true, 600000, false, 0⟩))
      [GraphicOp.register 0 ⟨false, true, 600000, false, 0⟩,
        GraphicOp.register 1 ⟨false, true, 600000, false, 0⟩]).trace = [] ∧
    (runOps 0 (managerCtor false (Except.ok 1000000) (Except.ok 10)
        (Except.ok true) (fun _ => ⟨false, true, 600000, false, 0⟩))
      [GraphicOp.register 0 ⟨false, true, 600000, false, 0⟩,
        GraphicOp.register 1 ⟨false, true, 600000, false, 0⟩]).mnUsedSize
      = 1200000 :=
  ⟨by decide, by decide, by decide⟩

def stC3 : ManagerState :=
  { mnAllowedIdleTime := 10, mbSwapEnabled := true,
    mbReducingGraphicMemory := false, mnMemoryLimit := 1000000,
    mnUsedSize := 1200000, m_pImpGraphicList := [0, 1],
    heap := fun _ => ⟨false, true, 600000, false, 0⟩,
    lockHeld := false, trace := [] }

theorem C3_register_preeviction_trigger_witness :
    ∃ tl, (registerGraphic 100 2 stC3).trace
      = stC3.trace ++ Event.sweepStart :: tl :=
  (C3_register_preeviction_trigger 100 2 stC3).2.2 (by decide) rfl rfl

/-- C6: during an eviction sweep, (a) an object whose idle duration
now - lastUsed is less than the idle timeout is never swapped out: every
swap-out the sweep adds to the trace concerns an object that was idle
strictly longer than the timeout; (b) an object reached at the head of the
remaining snapshot with usage still at or above the early-stop threshold,
swapped in, larger than 100000 bytes, without active operation and idle for
more than the timeout, is swapped out. -/
theorem C6_idle_timeout_eviction (now : Int) (st : ManagerState) :
    (∀ id, now - (st.heap id).maLastUsed < st.mnAllowedIdleTime →
      ∀ (l : List Nat) (g : ImpGraphic) (b : Bool),
        Event.swapOutCall id g b ∈ (loopGraphicsAndSwapOut now st l).trace →
        Event.swapOutCall id g b ∈ st.trace) ∧
    (∀ id rest, memoryLimitThreshold st.mnMemoryLimit ≤ st.mnUsedSize →
      (st.heap id).swappedOut = false →
      100000 < getGraphicSizeBytes (st.heap id) →
      (st.heap id).mpContext = false →
      st.mnAllowedIdleTime < now - (st.heap id).maLastUsed →
      Event.swapOutCall id (st.heap id) false
        ∈ (loopGraphicsAndSwapOut now st (id :: rest)).trace) := by
  constructor
  · intro id hidle l g b hmem
    rcases loop_events now l st _ hmem with hl | ⟨id2, heq, _, _, _, hidle2⟩
    · exact hl
    · injection heq with h1 h2 h3
      subst h1
      exact absurd hidle2 (by omega)
  · intro id rest hthr hswap hsize hctx hidle
    have hstep : loopGraphicsAndSwapOut now st (id :: rest)
        = loopGraphicsAndSwapOut now (swapOutCallback st id) rest := by
      simp only [loopGraphicsAndSwapOut]
      rw [if_neg (not_lt.2 hthr), if_neg (by simp [hswap]), if_pos hsize,
        if_pos hctx, if_pos hidle]
    rw [hstep]
    refine loop_trace_mono now rest _ _ ?_
    show Event.swapOutCall id (st.heap id) false
      ∈ st.trace ++ [Event.swapOutCall id (st.heap id) false]
    exact List.mem_append_right _ (List.mem_singleton.2 rfl)

def stC6 : ManagerState :=
  { mnAllowedIdleTime := 10, mbSwapEnabled := true,
    mbReducingGraphicMemory := true, mnMemoryLimit := 100,
    mnUsedSize := 500000, m_pImpGraphicList := [1, 2],
    heap := fun j => if j = 1 then ⟨false, true, 300000, false, 95⟩
      else ⟨false, true, 200000, false, 0⟩,
    lockHeld := true, trace := [] }

theorem C6_idle_timeout_eviction_witness :
    Event.swapOutCall 2 ⟨false, true, 200000, false, 0⟩ false
        ∈ (loopGraphicsAndSwapOut 100 stC6 [2]).trace ∧
    ¬ Event.swapOutCall 1 ⟨false, true, 300000, false, 95⟩ false
        ∈ (loopGraphicsAndSwapOut 100 stC6 [1, 2]).trace := by
  constructor
  · exact (C6_idle_timeout_eviction 100 stC6).2 2 [] (by decide) (by decide)
      (by decide) (by decide) (by decide)
  · intro hmem
    have h := (C6_idle_timeout_eviction 100 stC6).1 1 (by decide) [1, 2]
      ⟨false, true, 300000, false, 95⟩ false hmem
    have hnil : Event.swapOutCall 1 ⟨false, true, 300000, false, 95⟩ false
        ∈ ([] : List Event) := h
    cases hnil
